import Mathlib

/-!
Shallow embedding of the Tugas-4-PBKK data model: a minimal social-network
store (User, Post, Like) accessed through two service layers, one written
against TypeORM repositories and one against the Prisma client.  The entity
shapes and constraints are translated from the schema declarations in the
source (the TypeORM `User` and `Like` entities and the Prisma schema);
the service operations are translated from the two `LikesService` classes
and the two `UsersService` classes shown in the source.

Timestamps are modelled as abstract `Nat` instants passed in as `now`;
the relational store is a record of row lists plus auto-increment counters.
-/

namespace SocialApp

/-- `User` row: `@Entity('users')` — id (`@PrimaryGeneratedColumn`),
name (`@Column`), email (`@Column({ unique: true })`), createdAt, updatedAt. -/
structure User where
  id : Nat
  name : String
  email : String
  createdAt : Nat
  updatedAt : Nat
deriving DecidableEq, Repr

/-- `Post` row, from the Prisma schema: id, title, content,
authorId (FK → User, onDelete Cascade), createdAt, updatedAt. -/
structure Post where
  id : Nat
  title : String
  content : String
  authorId : Nat
  createdAt : Nat
  updatedAt : Nat
deriving DecidableEq, Repr

/-- `Like` row: `@Entity('likes')`, `@Unique(['userId', 'postId'])` —
id, userId (FK → User, onDelete CASCADE), postId (FK → Post, onDelete
CASCADE), createdAt (no updatedAt column). -/
structure Like where
  id : Nat
  userId : Nat
  postId : Nat
  createdAt : Nat
deriving DecidableEq, Repr

/-- The durable state of the relational store: one table per entity plus
the auto-increment counters backing `@PrimaryGeneratedColumn` /
`@default(autoincrement())`. -/
structure Store where
  users : List User
  posts : List Post
  likes : List Like
  nextUserId : Nat
  nextPostId : Nat
  nextLikeId : Nat
deriving DecidableEq, Repr

/-- The distinguishable error conditions surfaced by the persistence
engine: uniqueness, foreign-key, not-found. -/
inductive DbError where
  | UniquenessViolation
  | ForeignKeyViolation
  | NotFound
deriving DecidableEq, Repr

/-- A store with no rows and fresh counters. -/
def emptyStore : Store :=
  { users := [], posts := [], likes := [], nextUserId := 1, nextPostId := 1, nextLikeId := 1 }

/-! ## DTOs (from the class-validator DTO classes; Update DTOs are
`PartialType` of the Create DTOs, so every field is optional). -/

/-- `CreateUserDto`: name, email. -/
structure CreateUserDto where
  name : String
  email : String
deriving DecidableEq, Repr

/-- `UpdateUserDto = PartialType(CreateUserDto)`. -/
structure UpdateUserDto where
  name : Option String := none
  email : Option String := none
deriving DecidableEq, Repr

/-- `CreateLikeDto`: userId, postId. -/
structure CreateLikeDto where
  userId : Nat
  postId : Nat
deriving DecidableEq, Repr

/-- `UpdateLikeDto = PartialType(CreateLikeDto)`. -/
structure UpdateLikeDto where
  userId : Option Nat := none
  postId : Option Nat := none
deriving DecidableEq, Repr

/-! ## Persistence-engine primitives

Modelled from the spec: the persistence engine itself (SQL database plus
ORM runtime) is not part of the source tree; only its configuration is.
These primitives follow the spec's §6 contract — per entity type
{insert-one, find-all, find-by-id, update-by-id, delete-by-id}, surfacing
constraint violations as distinguishable errors — enforcing exactly the
constraints declared in the source schema files (unique email on users,
unique (userId, postId) on likes, foreign keys with cascade delete).
Uniqueness is checked before foreign keys, matching the order in which
the spec lists the failure modes of create. -/

/-- Engine insert for users. Modelled from the spec: enforces the
`@Column({ unique: true })` email constraint declared in the source —
a duplicate email fails with UniquenessViolation and writes nothing. -/
def Store.insertUser (s : Store) (d : CreateUserDto) (now : Nat) :
    Except DbError (User × Store) :=
  if s.users.any (fun u => u.email == d.email) then
    .error .UniquenessViolation
  else
    let u : User :=
      { id := s.nextUserId, name := d.name, email := d.email, createdAt := now, updatedAt := now }
    .ok (u, { s with users := s.users ++ [u], nextUserId := s.nextUserId + 1 })

/-- Applies the fields present in an `UpdateUserDto` to a user row and
refreshes `updatedAt` (the `@UpdateDateColumn`); absent fields are kept. -/
def applyUserDto (u : User) (d : UpdateUserDto) (now : Nat) : User :=
  { u with
    name := d.name.getD u.name
    email := d.email.getD u.email
    updatedAt := now }

/-- Engine update of the user rows matching `id`. Modelled from the spec:
a SQL `UPDATE ... WHERE id = id` that applies the dto fields to every
matching row, failing with UniquenessViolation (and writing nothing) if
the written email would duplicate another row's email. `u` is the row
`find-by-id` located; the caller supplies it. -/
def Store.updateUserRows (s : Store) (id : Nat) (u : User) (d : UpdateUserDto) (now : Nat) :
    Except DbError Store :=
  let u' := applyUserDto u d now
  if s.users.any (fun v => v.id != id && v.email == u'.email) then
    .error .UniquenessViolation
  else
    .ok { s with users := s.users.map (fun v => if v.id == id then applyUserDto v d now else v) }

/-- Engine cascade delete of a user, per the `onDelete: 'CASCADE'` /
`onDelete: Cascade` declarations in the source schema: the user row goes,
every post with `authorId = id` goes, and every like that either was made
by the user or sits on one of the deleted posts goes transitively. -/
def Store.deleteUserCascade (s : Store) (id : Nat) : Store :=
  let deletedPosts := s.posts.filter (fun p => p.authorId == id)
  { s with
    users := s.users.filter (fun u => u.id != id)
    posts := s.posts.filter (fun p => p.authorId != id)
    likes := s.likes.filter (fun l =>
      l.userId != id && !(deletedPosts.any (fun p => p.id == l.postId))) }

/-! ## UsersService (TypeORM repository variant, from the source) -/

/-- TypeORM `UsersService.create`: `repository.create(dto)` then
`repository.save(user)` — a single engine insert. -/
def typeormCreateUser (d : CreateUserDto) (now : Nat) (s : Store) :
    Except DbError (User × Store) :=
  s.insertUser d now

/-- TypeORM `UsersService.findAll`: `repository.find()` — every user row. -/
def typeormFindAllUsers (s : Store) : List User :=
  s.users

/-- TypeORM `UsersService.findOne`: `repository.findOne({ where: { id } })`
— the row with that id, or null. -/
def typeormFindOneUser (id : Nat) (s : Store) : Option User :=
  s.users.find? (fun u => u.id == id)

/-- TypeORM `UsersService.update`: `await repository.update(id, dto)` (a raw
UPDATE — zero rows affected is not an error) then `return this.findOne(id)`. -/
def typeormUpdateUser (id : Nat) (d : UpdateUserDto) (now : Nat) (s : Store) :
    Except DbError (Option User × Store) :=
  match s.users.find? (fun v => v.id == id) with
  | none => .ok (typeormFindOneUser id s, s)
  | some u =>
    match s.updateUserRows id u d now with
    | .error e => .error e
    | .ok s' => .ok (typeormFindOneUser id s', s')

/-- TypeORM `UsersService.remove`: `await repository.delete(id)` — a raw
DELETE returning void; deleting a nonexistent id affects zero rows and is
not an error; cascades per the schema. -/
def typeormRemoveUser (id : Nat) (s : Store) : Except DbError (Unit × Store) :=
  .ok ((), s.deleteUserCascade id)

/-! ## UsersService (Prisma client variant, from the source) -/

/-- Prisma `UsersService.create`: `prisma.user.create({ data: dto })`. -/
def prismaCreateUser (d : CreateUserDto) (now : Nat) (s : Store) :
    Except DbError (User × Store) :=
  s.insertUser d now

/-- Prisma `UsersService.findAll`: `prisma.user.findMany()`. -/
def prismaFindAllUsers (s : Store) : List User :=
  s.users

/-- Prisma `UsersService.findOne`: `prisma.user.findUnique({ where: { id } })`
— the row with that id, or null; not an error when absent. -/
def prismaFindOneUser (id : Nat) (s : Store) : Option User :=
  s.users.find? (fun u => u.id == id)

/-- Prisma `UsersService.update`: `prisma.user.update({ where: { id }, data })`
— fails with NotFound when no row has that id, otherwise applies the dto
and returns the updated row. -/
def prismaUpdateUser (id : Nat) (d : UpdateUserDto) (now : Nat) (s : Store) :
    Except DbError (User × Store) :=
  match s.users.find? (fun v => v.id == id) with
  | none => .error .NotFound
  | some u =>
    match s.updateUserRows id u d now with
    | .error e => .error e
    | .ok s' => .ok (applyUserDto u d now, s')

/-- Prisma `UsersService.remove`: `prisma.user.delete({ where: { id } })` —
fails with NotFound when no row has that id, otherwise deletes (cascading
per the schema) and returns the deleted row's field values. -/
def prismaRemoveUser (id : Nat) (s : Store) : Except DbError (User × Store) :=
  match s.users.find? (fun u => u.id == id) with
  | none => .error .NotFound
  | some u => .ok (u, s.deleteUserCascade id)

/-! ## Likes engine primitives -/

/-- Engine insert for likes. Modelled from the spec: enforces the
`@Unique(['userId', 'postId'])` composite constraint and the two foreign
keys declared in the source `Like` entity; a failed insert writes nothing. -/
def Store.insertLike (s : Store) (d : CreateLikeDto) (now : Nat) :
    Except DbError (Like × Store) :=
  if s.likes.any (fun l => l.userId == d.userId && l.postId == d.postId) then
    .error .UniquenessViolation
  else if !(s.users.any (fun u => u.id == d.userId)) then
    .error .ForeignKeyViolation
  else if !(s.posts.any (fun p => p.id == d.postId)) then
    .error .ForeignKeyViolation
  else
    let l : Like := { id := s.nextLikeId, userId := d.userId, postId := d.postId, createdAt := now }
    .ok (l, { s with likes := s.likes ++ [l], nextLikeId := s.nextLikeId + 1 })

/-- Applies the fields present in an `UpdateLikeDto` to a like row;
absent fields are kept; `Like` has no `updatedAt` column. -/
def applyLikeDto (l : Like) (d : UpdateLikeDto) : Like :=
  { l with
    userId := d.userId.getD l.userId
    postId := d.postId.getD l.postId }

/-- Engine update of the like rows matching `id`. Modelled from the spec:
a SQL `UPDATE ... WHERE id = id` applying the dto fields to every matching
row, failing (writing nothing) with UniquenessViolation if the written
(userId, postId) pair would duplicate another row's pair, or with
ForeignKeyViolation if a written foreign key references no existing row.
`l` is the row `find-by-id` located; the caller supplies it. -/
def Store.updateLikeRows (s : Store) (id : Nat) (l : Like) (d : UpdateLikeDto) :
    Except DbError Store :=
  let l' := applyLikeDto l d
  if s.likes.any (fun m => m.id != id && (m.userId == l'.userId && m.postId == l'.postId)) then
    .error .UniquenessViolation
  else if !(s.users.any (fun u => u.id == l'.userId)) then
    .error .ForeignKeyViolation
  else if !(s.posts.any (fun p => p.id == l'.postId)) then
    .error .ForeignKeyViolation
  else
    .ok { s with likes := s.likes.map (fun m => if m.id == id then applyLikeDto m d else m) }

/-- Engine delete-by-id for likes: no rows reference likes, so no cascade. -/
def Store.deleteLikeRows (s : Store) (id : Nat) : Store :=
  { s with likes := s.likes.filter (fun l => l.id != id) }

/-! ## LikesService (TypeORM repository variant, from the source) -/

/-- TypeORM `LikesService.create`: `repository.create(dto)` then
`repository.save(like)` — a single engine insert. -/
def typeormCreateLike (d : CreateLikeDto) (now : Nat) (s : Store) :
    Except DbError (Like × Store) :=
  s.insertLike d now

/-- TypeORM `LikesService.findAll`: `repository.find()`. -/
def typeormFindAllLikes (s : Store) : List Like :=
  s.likes

/-- TypeORM `LikesService.findOne`: `repository.findOne({ where: { id } })`
— the row with that id, or null; not an error when absent. -/
def typeormFindOneLike (id : Nat) (s : Store) : Option Like :=
  s.likes.find? (fun l => l.id == id)

/-- TypeORM `LikesService.update`: `await repository.update(id, dto)` (a raw
UPDATE — zero rows affected is not an error) then `return this.findOne(id)`. -/
def typeormUpdateLike (id : Nat) (d : UpdateLikeDto) (s : Store) :
    Except DbError (Option Like × Store) :=
  match s.likes.find? (fun m => m.id == id) with
  | none => .ok (typeormFindOneLike id s, s)
  | some l =>
    match s.updateLikeRows id l d with
    | .error e => .error e
    | .ok s' => .ok (typeormFindOneLike id s', s')

/-- TypeORM `LikesService.remove`: `await repository.delete(id)` — a raw
DELETE returning void; deleting a nonexistent id affects zero rows and is
not an error. -/
def typeormRemoveLike (id : Nat) (s : Store) : Except DbError (Unit × Store) :=
  .ok ((), s.deleteLikeRows id)

/-! ## LikesService (Prisma client variant, from the source) -/

/-- Prisma `LikesService.create`: `prisma.like.create({ data: dto })`. -/
def prismaCreateLike (d : CreateLikeDto) (now : Nat) (s : Store) :
    Except DbError (Like × Store) :=
  s.insertLike d now

/-- Prisma `LikesService.findAll`: `prisma.like.findMany()`. -/
def prismaFindAllLikes (s : Store) : List Like :=
  s.likes

/-- Prisma `LikesService.findOne`: `prisma.like.findUnique({ where: { id } })`
— the row with that id, or null; not an error when absent. -/
def prismaFindOneLike (id : Nat) (s : Store) : Option Like :=
  s.likes.find? (fun l => l.id == id)

/-- Prisma `LikesService.update`: `prisma.like.update({ where: { id }, data })`
— fails with NotFound when no row has that id, otherwise applies the dto and
returns the updated row. -/
def prismaUpdateLike (id : Nat) (d : UpdateLikeDto) (s : Store) :
    Except DbError (Like × Store) :=
  match s.likes.find? (fun m => m.id == id) with
  | none => .error .NotFound
  | some l =>
    match s.updateLikeRows id l d with
    | .error e => .error e
    | .ok s' => .ok (applyLikeDto l d, s')

/-- Prisma `LikesService.remove`: `prisma.like.delete({ where: { id } })` —
fails with NotFound when no row has that id, otherwise deletes the row and
returns its field values as they were immediately before deletion. -/
def prismaRemoveLike (id : Nat) (s : Store) : Except DbError (Like × Store) :=
  match s.likes.find? (fun l => l.id == id) with
  | none => .error .NotFound
  | some l => .ok (l, s.deleteLikeRows id)

/-! ## Invariants -/

/-- Referential integrity: every post's author exists and every like's
user and post exist. -/
def Store.Consistent (s : Store) : Prop :=
  (∀ p ∈ s.posts, ∃ u ∈ s.users, u.id = p.authorId) ∧
  (∀ l ∈ s.likes, (∃ u ∈ s.users, u.id = l.userId) ∧ (∃ p ∈ s.posts, p.id = l.postId))

/-- Email uniqueness across all users: any two rows at distinct positions
carry different emails. -/
def emailsUnique (users : List User) : Prop :=
  users.Pairwise (fun u v => u.email ≠ v.email)

/-- Primary-key uniqueness for users. -/
def userIdsUnique (users : List User) : Prop :=
  users.Pairwise (fun u v => u.id ≠ v.id)

/-- Primary-key uniqueness for likes. -/
def likeIdsUnique (likes : List Like) : Prop :=
  likes.Pairwise (fun l m => l.id ≠ m.id)

/-- Composite (userId, postId) uniqueness across all likes. -/
def likePairsUnique (likes : List Like) : Prop :=
  likes.Pairwise (fun l m => l.userId ≠ m.userId ∨ l.postId ≠ m.postId)

/-! ## Concrete stores for witnesses -/

/-- Demo row: user 1. -/
def demoAlice : User :=
  { id := 1, name := "Alice", email := "a@x.com", createdAt := 0, updatedAt := 0 }

/-- Demo row: user 2. -/
def demoBob : User :=
  { id := 2, name := "Bob", email := "b@x.com", createdAt := 0, updatedAt := 0 }

/-- Demo row: post 1 authored by user 1. -/
def demoPost1 : Post :=
  { id := 1, title := "Hi", content := "World", authorId := 1, createdAt := 1, updatedAt := 1 }

/-- Demo row: post 2 authored by user 2. -/
def demoPost2 : Post :=
  { id := 2, title := "Yo", content := "There", authorId := 2, createdAt := 1, updatedAt := 1 }

/-- Demo row: like 1 — user 2 likes post 1. -/
def demoLike1 : Like :=
  { id := 1, userId := 2, postId := 1, createdAt := 2 }

/-- Demo row: like 2 — user 1 likes post 2. -/
def demoLike2 : Like :=
  { id := 2, userId := 1, postId := 2, createdAt := 2 }

/-- Demo row: like 3 — user 2 likes post 2. -/
def demoLike3 : Like :=
  { id := 3, userId := 2, postId := 2, createdAt := 2 }

/-- A populated, consistent store: two users, two posts (one per author),
three likes. -/
def demoStore : Store :=
  { users := [demoAlice, demoBob]
    posts := [demoPost1, demoPost2]
    likes := [demoLike1, demoLike2, demoLike3]
    nextUserId := 3
    nextPostId := 3
    nextLikeId := 4 }

instance (s : Store) : Decidable s.Consistent := by
  unfold Store.Consistent
  exact inferInstance

instance (users : List User) : Decidable (emailsUnique users) := by
  unfold emailsUnique
  exact inferInstance

instance (users : List User) : Decidable (userIdsUnique users) := by
  unfold userIdsUnique
  exact inferInstance

instance (likes : List Like) : Decidable (likeIdsUnique likes) := by
  unfold likeIdsUnique
  exact inferInstance

instance (likes : List Like) : Decidable (likePairsUnique likes) := by
  unfold likePairsUnique
  exact inferInstance

/-! ## Helper lemmas -/

/-- Over a list whose keys are pairwise distinct, `find?` with a key test
locates exactly the member carrying that key. -/
theorem find?_by_key {α : Type} (key : α → Nat) (i : Nat) :
    ∀ {l : List α} {a : α}, l.Pairwise (fun x y => key x ≠ key y) → a ∈ l → key a = i →
      l.find? (fun x => key x == i) = some a := by
  intro l
  induction l with
  | nil => intro a _ ha _; cases ha
  | cons h t ih =>
    intro a hp ha hk
    rcases List.pairwise_cons.mp hp with ⟨hht, hpt⟩
    rcases List.mem_cons.mp ha with rfl | hat
    · simp [List.find?, hk]
    · have hne : key h ≠ i := hk ▸ hht a hat
      have : (key h == i) = false := by simpa using hne
      simp [List.find?, this]
      exact ih hpt hat hk

theorem userRemove_cascades_aux (s : Store) (id : Nat) (hc : s.Consistent) :
    (s.deleteUserCascade id).Consistent := by
  obtain ⟨hposts, hlikes⟩ := hc
  constructor
  · intro p hp
    rw [Store.deleteUserCascade] at hp
    simp only [List.mem_filter, bne_iff_ne, ne_eq] at hp
    obtain ⟨u, hu, hui⟩ := hposts p hp.1
    refine ⟨u, ?_, hui⟩
    rw [Store.deleteUserCascade]
    simp only [List.mem_filter, bne_iff_ne, ne_eq]
    exact ⟨hu, by rw [hui]; exact hp.2⟩
  · intro l hl
    rw [Store.deleteUserCascade] at hl
    simp only [List.mem_filter, Bool.and_eq_true, bne_iff_ne, ne_eq, Bool.not_eq_true',
      List.any_eq_false, beq_iff_eq] at hl
    obtain ⟨hmem, huser, hnopost⟩ := hl
    obtain ⟨⟨u, hu, hui⟩, ⟨p, hp, hpi⟩⟩ := hlikes l hmem
    constructor
    · refine ⟨u, ?_, hui⟩
      rw [Store.deleteUserCascade]
      simp only [List.mem_filter, bne_iff_ne, ne_eq]
      exact ⟨hu, by rw [hui]; exact huser⟩
    · have hpa : p.authorId ≠ id := by
        intro hpa
        exact hnopost p ⟨hp, hpa⟩ hpi
      refine ⟨p, ?_, hpi⟩
      rw [Store.deleteUserCascade]
      simp only [List.mem_filter, bne_iff_ne, ne_eq]
      exact ⟨hp, hpa⟩

/-- C1: after remove(id) on a User completes, no Post with authorId equal to
that id and no Like with userId equal to that id exists; Likes on the deleted
Posts are deleted transitively; and no orphaned rows referencing a deleted
row are observable (the store is still referentially consistent). Both the
TypeORM and the Prisma remove effect exactly this cascade. -/
theorem userRemove_cascades (s : Store) (id : Nat) (hc : s.Consistent) :
    typeormRemoveUser id s = .ok ((), s.deleteUserCascade id) ∧
    (∀ u s', prismaRemoveUser id s = .ok (u, s') → s' = s.deleteUserCascade id) ∧
    (∀ u ∈ (s.deleteUserCascade id).users, u.id ≠ id) ∧
    (∀ p ∈ (s.deleteUserCascade id).posts, p.authorId ≠ id) ∧
    (∀ l ∈ (s.deleteUserCascade id).likes, l.userId ≠ id) ∧
    (s.deleteUserCascade id).Consistent := by
  refine ⟨rfl, ?_, ?_, ?_, ?_, userRemove_cascades_aux s id hc⟩
  · intro u s' h
    rw [prismaRemoveUser] at h
    cases hf : s.users.find? (fun u => u.id == id) with
    | none => rw [hf] at h; cases h
    | some v => rw [hf] at h; cases h; rfl
  · intro u hu
    rw [Store.deleteUserCascade] at hu
    simp only [List.mem_filter, bne_iff_ne, ne_eq] at hu
    exact hu.2
  · intro p hp
    rw [Store.deleteUserCascade] at hp
    simp only [List.mem_filter, bne_iff_ne, ne_eq] at hp
    exact hp.2
  · intro l hl
    rw [Store.deleteUserCascade] at hl
    simp only [List.mem_filter, Bool.and_eq_true, bne_iff_ne, ne_eq] at hl
    exact hl.2.1

/-- Witness for C1 at a concrete consistent store: removing user 1 from
`demoStore` leaves a consistent store with none of user 1's rows. -/
theorem userRemove_cascades_witness :
    demoStore.Consistent ∧
      (∀ l ∈ (demoStore.deleteUserCascade 1).likes, l.userId ≠ 1) ∧
      (demoStore.deleteUserCascade 1).Consistent :=
  ⟨by decide,
   (userRemove_cascades demoStore 1 (by decide)).2.2.2.2.1,
   (userRemove_cascades demoStore 1 (by decide)).2.2.2.2.2⟩

/-- The mapped store produced by a guarded user update keeps emails
pairwise distinct: rows not matching `id` keep their emails, and the guard
promises the written email collides with no row other than the matched one. -/
theorem emailsUnique_map_update (users : List User) (id : Nat) (d : UpdateUserDto) (now : Nat)
    (hem : emailsUnique users) (hid : userIdsUnique users)
    (hguard : ∀ v ∈ users, v.id ≠ id → ∀ e, d.email = some e → v.email ≠ e) :
    emailsUnique (users.map (fun v => if v.id == id then applyUserDto v d now else v)) := by
  rw [emailsUnique, List.pairwise_map]
  refine (hem.and hid).imp_of_mem ?_
  intro a b ha hb hab
  obtain ⟨hemail, hidab⟩ := hab
  by_cases hA : a.id = id <;> by_cases hB : b.id = id
  · exact absurd (hA.trans hB.symm) hidab
  · have hA' : (a.id == id) = true := by simpa using hA
    have hB' : (b.id == id) = false := by simpa using hB
    simp only [hA', hB', if_true, if_false, Bool.false_eq_true]
    cases hd : d.email with
    | none => simpa [applyUserDto, hd] using hemail
    | some e => simpa [applyUserDto, hd] using (hguard b hb hB e hd).symm
  · have hA' : (a.id == id) = false := by simpa using hA
    have hB' : (b.id == id) = true := by simpa using hB
    simp only [hA', hB', if_true, if_false, Bool.false_eq_true]
    cases hd : d.email with
    | none => simpa [applyUserDto, hd] using hemail
    | some e => simpa [applyUserDto, hd] using hguard a ha hA e hd
  · have hA' : (a.id == id) = false := by simpa using hA
    have hB' : (b.id == id) = false := by simpa using hB
    simp only [hA', hB', if_false, Bool.false_eq_true]
    exact hemail

/-- A successful engine update of user rows preserves email uniqueness. -/
theorem updateUserRows_preserves_emailsUnique (s : Store) (id : Nat) (u : User)
    (d : UpdateUserDto) (now : Nat) (s' : Store)
    (hem : emailsUnique s.users) (hid : userIdsUnique s.users)
    (h : s.updateUserRows id u d now = .ok s') : emailsUnique s'.users := by
  rw [Store.updateUserRows] at h
  split at h
  · cases h
  · rename_i hguard
    injection h with hs
    subst hs
    apply emailsUnique_map_update _ _ _ _ hem hid
    intro v hv hvid e hde hve
    apply hguard
    refine List.any_eq_true.mpr ⟨v, hv, ?_⟩
    simp [applyUserDto, hde, hvid, hve]

/-- C2: email uniqueness holds across all Users at all times — an insert or
update that would duplicate an existing User's email fails with
UniquenessViolation and writes nothing, and every successful insert or
update (via either service) preserves pairwise-distinct emails. -/
theorem email_uniqueness_enforced (s : Store)
    (hem : emailsUnique s.users) (hid : userIdsUnique s.users) :
    (∀ d now u' s', s.insertUser d now = .ok (u', s') → emailsUnique s'.users) ∧
    (∀ d now, (∃ u ∈ s.users, u.email = d.email) →
      s.insertUser d now = .error .UniquenessViolation) ∧
    (∀ id d now u' s', prismaUpdateUser id d now s = .ok (u', s') → emailsUnique s'.users) ∧
    (∀ id d now o s', typeormUpdateUser id d now s = .ok (o, s') → emailsUnique s'.users) ∧
    (∀ id u e now, s.users.find? (fun v => v.id == id) = some u →
      (∃ v ∈ s.users, v.id ≠ id ∧ v.email = e) →
      prismaUpdateUser id { name := none, email := some e } now s =
        .error .UniquenessViolation) := by
  refine ⟨?_, ?_, ?_, ?_, ?_⟩
  · intro d now u' s' h
    rw [Store.insertUser] at h
    split at h
    · cases h
    · rename_i hfalse
      simp only [Except.ok.injEq, Prod.mk.injEq] at h
      obtain ⟨hu, hs⟩ := h
      subst hs
      rw [emailsUnique, List.pairwise_append]
      refine ⟨hem, List.pairwise_singleton _ _, ?_⟩
      intro a ha b hb
      rw [List.mem_singleton] at hb
      subst hb
      intro hcontra
      apply hfalse
      exact List.any_eq_true.mpr ⟨a, ha, by simpa using hcontra⟩
  · intro d now ⟨u, hu, he⟩
    have hcond : (s.users.any fun v => v.email == d.email) = true :=
      List.any_eq_true.mpr ⟨u, hu, by simp [he]⟩
    simp [Store.insertUser, hcond]
  · intro id d now u' s' h
    cases hf : s.users.find? (fun v => v.id == id) with
    | none => simp only [prismaUpdateUser, hf] at h; cases h
    | some u =>
      simp only [prismaUpdateUser, hf] at h
      cases hr : s.updateUserRows id u d now with
      | error e => simp only [hr] at h; cases h
      | ok s0 =>
        simp only [hr, Except.ok.injEq, Prod.mk.injEq] at h
        obtain ⟨_, hs⟩ := h
        subst hs
        exact updateUserRows_preserves_emailsUnique s id u d now s0 hem hid hr
  · intro id d now o s' h
    cases hf : s.users.find? (fun v => v.id == id) with
    | none =>
      simp only [typeormUpdateUser, hf, Except.ok.injEq, Prod.mk.injEq] at h
      obtain ⟨_, hs⟩ := h
      subst hs
      exact hem
    | some u =>
      simp only [typeormUpdateUser, hf] at h
      cases hr : s.updateUserRows id u d now with
      | error e => simp only [hr] at h; cases h
      | ok s0 =>
        simp only [hr, Except.ok.injEq, Prod.mk.injEq] at h
        obtain ⟨_, hs⟩ := h
        subst hs
        exact updateUserRows_preserves_emailsUnique s id u d now s0 hem hid hr
  · intro id u e now hf hex
    obtain ⟨v, hv, hvid, hve⟩ := hex
    have hcond : (s.users.any fun w =>
        w.id != id && w.email == (applyUserDto u { name := none, email := some e } now).email)
        = true :=
      List.any_eq_true.mpr ⟨v, hv, by simp [applyUserDto, hvid, hve]⟩
    simp [prismaUpdateUser, hf, Store.updateUserRows, hcond]

/-- Witness for C2: in `demoStore` the emails are pairwise distinct, and
inserting a third user with Alice's email fails with UniquenessViolation. -/
theorem email_uniqueness_enforced_witness :
    emailsUnique demoStore.users ∧
      demoStore.insertUser { name := "Eve", email := "a@x.com" } 5 =
        .error .UniquenessViolation :=
  ⟨by decide,
   (email_uniqueness_enforced demoStore (by decide) (by decide)).2.1
     { name := "Eve", email := "a@x.com" } 5
     ⟨{ id := 1, name := "Alice", email := "a@x.com", createdAt := 0, updatedAt := 0 },
      by decide, by decide⟩⟩

/-- C3: creating a second Like with an identical (userId, postId) pair as an
existing Like fails with UniquenessViolation, in both service variants. -/
theorem duplicate_like_rejected (s : Store) (d : CreateLikeDto) (now : Nat)
    (h : ∃ l ∈ s.likes, l.userId = d.userId ∧ l.postId = d.postId) :
    typeormCreateLike d now s = .error .UniquenessViolation ∧
    prismaCreateLike d now s = .error .UniquenessViolation := by
  obtain ⟨l, hl, hu, hp⟩ := h
  have hcond : (s.likes.any fun m => m.userId == d.userId && m.postId == d.postId) = true :=
    List.any_eq_true.mpr ⟨l, hl, by simp [hu, hp]⟩
  constructor <;>
    simp [typeormCreateLike, prismaCreateLike, Store.insertLike, hcond]

/-- Witness for C3: user 2 already likes post 1 in `demoStore`, so liking it
again fails with UniquenessViolation. -/
theorem duplicate_like_rejected_witness :
    (∃ l ∈ demoStore.likes, l.userId = 2 ∧ l.postId = 1) ∧
      prismaCreateLike { userId := 2, postId := 1 } 7 demoStore =
        .error .UniquenessViolation :=
  ⟨⟨demoLike1, by decide, by decide, by decide⟩,
   (duplicate_like_rejected demoStore { userId := 2, postId := 1 } 7
     ⟨demoLike1, by decide, by decide, by decide⟩).2⟩

/-- Rows with pairwise-distinct keys admit at most one row per key value. -/
theorem eq_of_mem_of_key_eq {α : Type} (key : α → Nat) {l : List α} {a b : α}
    (hp : l.Pairwise (fun x y => key x ≠ key y)) (ha : a ∈ l) (hb : b ∈ l)
    (hk : key a = key b) : a = b := by
  by_contra hne
  exact (hp.forall (fun x y h => Ne.symm h) ha hb hne) hk

/-- The mapped store produced by a guarded like update keeps (userId, postId)
pairs pairwise distinct: rows not matching `id` keep their pairs, and the
guard promises the written pair collides with no row other than the matched
one. -/
theorem likePairsUnique_map_update (likes : List Like) (id : Nat) (l : Like)
    (d : UpdateLikeDto)
    (hpu : likePairsUnique likes) (hid : likeIdsUnique likes)
    (hl : l ∈ likes) (hlid : l.id = id)
    (hguard : ∀ m ∈ likes, m.id ≠ id →
      ¬(m.userId = (applyLikeDto l d).userId ∧ m.postId = (applyLikeDto l d).postId)) :
    likePairsUnique (likes.map (fun m => if m.id == id then applyLikeDto m d else m)) := by
  rw [likePairsUnique, List.pairwise_map]
  refine (hpu.and hid).imp_of_mem ?_
  intro a b ha hb hab
  obtain ⟨hpair, hidab⟩ := hab
  have hval : ∀ x ∈ likes, x.id = id → x = l := by
    intro x hx hxid
    exact eq_of_mem_of_key_eq Like.id hid hx hl (hxid.trans hlid.symm)
  by_cases hA : a.id = id <;> by_cases hB : b.id = id
  · exact absurd (hA.trans hB.symm) hidab
  · have ha' : a = l := hval a ha hA
    have hA' : (a.id == id) = true := by simpa using hA
    have hB' : (b.id == id) = false := by simpa using hB
    simp only [hA', hB', if_true, if_false, Bool.false_eq_true]
    rcases not_and_or.mp (hguard b hb hB) with hgu | hgp
    · exact Or.inl (by rw [ha']; exact Ne.symm hgu)
    · exact Or.inr (by rw [ha']; exact Ne.symm hgp)
  · have hb' : b = l := hval b hb hB
    have hA' : (a.id == id) = false := by simpa using hA
    have hB' : (b.id == id) = true := by simpa using hB
    simp only [hA', hB', if_true, if_false, Bool.false_eq_true]
    rcases not_and_or.mp (hguard a ha hA) with hgu | hgp
    · exact Or.inl (by rw [hb']; exact hgu)
    · exact Or.inr (by rw [hb']; exact hgp)
  · have hA' : (a.id == id) = false := by simpa using hA
    have hB' : (b.id == id) = false := by simpa using hB
    simp only [hA', hB', if_false, Bool.false_eq_true]
    exact hpair

/-- A successful engine update of like rows preserves composite
(userId, postId) uniqueness. -/
theorem updateLikeRows_preserves_pairsUnique (s : Store) (id : Nat) (l : Like)
    (d : UpdateLikeDto) (s' : Store)
    (hpu : likePairsUnique s.likes) (hid : likeIdsUnique s.likes)
    (hl : l ∈ s.likes) (hlid : l.id = id)
    (h : s.updateLikeRows id l d = .ok s') : likePairsUnique s'.likes := by
  rw [Store.updateLikeRows] at h
  split at h
  · cases h
  split at h
  · cases h
  split at h
  · cases h
  rename_i hguard _ _
  injection h with hs
  subst hs
  apply likePairsUnique_map_update s.likes id l d hpu hid hl hlid
  intro m hm hmid ⟨hmu, hmp⟩
  apply hguard
  refine List.any_eq_true.mpr ⟨m, hm, ?_⟩
  simp [hmid, hmu, hmp]

/-- A successful engine insert of a like preserves composite
(userId, postId) uniqueness. -/
theorem insertLike_preserves_pairsUnique (s : Store) (d : CreateLikeDto) (now : Nat)
    (r : Like) (s' : Store)
    (hpu : likePairsUnique s.likes)
    (h : s.insertLike d now = .ok (r, s')) : likePairsUnique s'.likes := by
  rw [Store.insertLike] at h
  split at h
  · cases h
  split at h
  · cases h
  split at h
  · cases h
  rename_i hdup _ _
  simp only [Except.ok.injEq, Prod.mk.injEq] at h
  obtain ⟨_, hs⟩ := h
  subst hs
  rw [likePairsUnique, List.pairwise_append]
  refine ⟨hpu, List.pairwise_singleton _ _, ?_⟩
  intro a ha b hb
  rw [List.mem_singleton] at hb
  subst hb
  by_contra hcontra
  push_neg at hcontra
  apply hdup
  exact List.any_eq_true.mpr ⟨a, ha, by simp [hcontra.1, hcontra.2]⟩

/-- C9: the composite (userId, postId) uniqueness on Like is enforced on
update as well as create: updating a Like so that its pair would equal
another existing Like's pair fails with UniquenessViolation in both service
variants, and every successful update or insert (via either service)
preserves pairwise-distinct pairs. -/
theorem like_pair_uniqueness_on_update (s : Store) (id : Nat) (l1 l2 : Like)
    (hf : s.likes.find? (fun m => m.id == id) = some l1)
    (h2 : l2 ∈ s.likes) (hne : l2.id ≠ id)
    (hid : likeIdsUnique s.likes) (hpu : likePairsUnique s.likes) :
    prismaUpdateLike id { userId := some l2.userId, postId := some l2.postId } s =
      .error .UniquenessViolation ∧
    typeormUpdateLike id { userId := some l2.userId, postId := some l2.postId } s =
      .error .UniquenessViolation ∧
    (∀ j d r s', prismaUpdateLike j d s = .ok (r, s') → likePairsUnique s'.likes) ∧
    (∀ j d o s', typeormUpdateLike j d s = .ok (o, s') → likePairsUnique s'.likes) ∧
    (∀ d now r s', s.insertLike d now = .ok (r, s') → likePairsUnique s'.likes) := by
  have hcond : (s.likes.any fun m => m.id != id &&
      (m.userId == (applyLikeDto l1 { userId := some l2.userId, postId := some l2.postId }).userId &&
        m.postId == (applyLikeDto l1 { userId := some l2.userId, postId := some l2.postId }).postId))
      = true :=
    List.any_eq_true.mpr ⟨l2, h2, by simp [applyLikeDto, hne]⟩
  refine ⟨?_, ?_, ?_, ?_, ?_⟩
  · simp [prismaUpdateLike, hf, Store.updateLikeRows, hcond]
  · simp [typeormUpdateLike, hf, Store.updateLikeRows, hcond]
  · intro j d r s' h
    cases hfj : s.likes.find? (fun m => m.id == j) with
    | none => simp only [prismaUpdateLike, hfj] at h; cases h
    | some l =>
      simp only [prismaUpdateLike, hfj] at h
      cases hr : s.updateLikeRows j l d with
      | error e => simp only [hr] at h; cases h
      | ok s0 =>
        simp only [hr, Except.ok.injEq, Prod.mk.injEq] at h
        obtain ⟨_, hs⟩ := h
        subst hs
        exact updateLikeRows_preserves_pairsUnique s j l d s0 hpu hid
          (List.mem_of_find?_eq_some hfj) (by simpa using List.find?_some hfj) hr
  · intro j d o s' h
    cases hfj : s.likes.find? (fun m => m.id == j) with
    | none =>
      simp only [typeormUpdateLike, hfj, Except.ok.injEq, Prod.mk.injEq] at h
      obtain ⟨_, hs⟩ := h
      subst hs
      exact hpu
    | some l =>
      simp only [typeormUpdateLike, hfj] at h
      cases hr : s.updateLikeRows j l d with
      | error e => simp only [hr] at h; cases h
      | ok s0 =>
        simp only [hr, Except.ok.injEq, Prod.mk.injEq] at h
        obtain ⟨_, hs⟩ := h
        subst hs
        exact updateLikeRows_preserves_pairsUnique s j l d s0 hpu hid
          (List.mem_of_find?_eq_some hfj) (by simpa using List.find?_some hfj) hr
  · intro d now r s' h
    exact insertLike_preserves_pairsUnique s d now r s' hpu h

/-- Witness for C9: in `demoStore`, updating like 1 to the pair of like 2
fails with UniquenessViolation under both services. -/
theorem like_pair_uniqueness_on_update_witness :
    demoStore.likes.find? (fun m => m.id == 1) = some demoLike1 ∧
      prismaUpdateLike 1 { userId := some demoLike2.userId, postId := some demoLike2.postId }
        demoStore = .error .UniquenessViolation :=
  ⟨by decide,
   (like_pair_uniqueness_on_update demoStore 1 demoLike1 demoLike2
     (by decide) (by decide) (by decide) (by decide) (by decide)).1⟩

/-- C7: updating an existing User with only a name changes only `name` and
`updatedAt` (refreshed to the current time); `email`, `createdAt` and `id`
are unchanged, every other row is untouched, and both service variants
succeed with that row. -/
theorem user_update_frame (s : Store) (id now : Nat) (x : String) (u : User)
    (hf : s.users.find? (fun v => v.id == id) = some u)
    (hem : emailsUnique s.users) (hid : userIdsUnique s.users) :
    ∃ u' s',
      prismaUpdateUser id { name := some x, email := none } now s = .ok (u', s') ∧
      typeormUpdateUser id { name := some x, email := none } now s = .ok (some u', s') ∧
      u'.name = x ∧ u'.updatedAt = now ∧
      u'.email = u.email ∧ u'.createdAt = u.createdAt ∧ u'.id = u.id ∧
      (∀ v ∈ s.users, v.id ≠ id → v ∈ s'.users) ∧
      (∀ w ∈ s'.users, w.id ≠ id → w ∈ s.users) := by
  have hu_mem : u ∈ s.users := List.mem_of_find?_eq_some hf
  have hu_id : u.id = id := by simpa using List.find?_some hf
  have hguard : (s.users.any fun v => v.id != id &&
      v.email == (applyUserDto u { name := some x, email := none } now).email) = false := by
    rw [List.any_eq_false]
    intro v hv hcontra
    simp only [Bool.and_eq_true, bne_iff_ne, ne_eq, beq_iff_eq] at hcontra
    obtain ⟨hvne, hveq⟩ := hcontra
    have hvu : v ≠ u := fun h => hvne (h ▸ hu_id)
    exact (hem.forall (fun a b h => Ne.symm h) hv hu_mem hvu)
      (by simpa [applyUserDto] using hveq)
  have hkeep : ∀ v : User,
      ((if v.id == id then applyUserDto v { name := some x, email := none } now else v)).id
        = v.id := by
    intro v
    by_cases hv : (v.id == id) = true <;> simp [hv, applyUserDto]
  refine ⟨applyUserDto u { name := some x, email := none } now,
    { s with users := s.users.map (fun v => if v.id == id then applyUserDto v { name := some x, email := none } now else v) },
    ?_, ?_, rfl, rfl, rfl, rfl, rfl, ?_, ?_⟩
  · simp [prismaUpdateUser, hf, Store.updateUserRows, hguard]
  · have hpair' : (s.users.map (fun v => if v.id == id then applyUserDto v { name := some x, email := none } now else v)).Pairwise (fun a b => a.id ≠ b.id) := by
      rw [List.pairwise_map]
      refine hid.imp_of_mem ?_
      intro a b _ _ hr
      simpa only [hkeep] using hr
    have hmem' : applyUserDto u { name := some x, email := none } now ∈
        s.users.map (fun v => if v.id == id then applyUserDto v { name := some x, email := none } now else v) :=
      List.mem_map.mpr ⟨u, hu_mem, by simp [hu_id]⟩
    have hrows : s.updateUserRows id u { name := some x, email := none } now =
        .ok { s with users := s.users.map (fun v => if v.id == id then applyUserDto v { name := some x, email := none } now else v) } := by
      simp [Store.updateUserRows, hguard]
    have hfind2 : typeormFindOneUser id
        { s with users := s.users.map (fun v => if v.id == id then applyUserDto v { name := some x, email := none } now else v) } =
        some (applyUserDto u { name := some x, email := none } now) :=
      find?_by_key User.id id hpair' hmem' hu_id
    simp only [typeormUpdateUser, hf, hrows, hfind2]
  · intro v hv hvne
    exact List.mem_map.mpr ⟨v, hv, by simp [show (v.id == id) = false from by simpa using hvne]⟩
  · intro w hw hwne
    obtain ⟨a, ha, hga⟩ := List.mem_map.mp hw
    by_cases haid : (a.id == id) = true
    · have haid' : a.id = id := by simpa using haid
      exact absurd (by rw [← hga]; simp [haid, applyUserDto, haid']) hwne
    · have hwa : w = a := by rw [← hga]; simp [haid]
      exact hwa ▸ ha

/-- Witness for C7: renaming Bob in `demoStore` keeps his email, createdAt
and id, refreshes updatedAt, and leaves the other rows in place. -/
theorem user_update_frame_witness :
    demoStore.users.find? (fun v => v.id == 2) = some demoBob ∧
    emailsUnique demoStore.users ∧
    ∃ u' s',
      prismaUpdateUser 2 { name := some "Bobby", email := none } 9 demoStore = .ok (u', s') ∧
      typeormUpdateUser 2 { name := some "Bobby", email := none } 9 demoStore
        = .ok (some u', s') ∧
      u'.name = "Bobby" ∧ u'.updatedAt = 9 ∧
      u'.email = demoBob.email ∧ u'.createdAt = demoBob.createdAt ∧ u'.id = demoBob.id ∧
      (∀ v ∈ demoStore.users, v.id ≠ 2 → v ∈ s'.users) ∧
      (∀ w ∈ s'.users, w.id ≠ 2 → w ∈ demoStore.users) :=
  ⟨by decide, by decide,
   user_update_frame demoStore 2 9 "Bobby" demoBob (by decide) (by decide) (by decide)⟩

/-- C8: findOne(id) returns the single entity with that identifier when one
exists and a not-found indication (none) otherwise, never an error; the two
service variants agree. -/
theorem findOne_contract (s : Store) (id : Nat) (hid : likeIdsUnique s.likes) :
    typeormFindOneLike id s = prismaFindOneLike id s ∧
    (∀ l, prismaFindOneLike id s = some l → l ∈ s.likes ∧ l.id = id) ∧
    (∀ l ∈ s.likes, l.id = id → prismaFindOneLike id s = some l) ∧
    (prismaFindOneLike id s = none ↔ ∀ l ∈ s.likes, l.id ≠ id) := by
  refine ⟨rfl, ?_, ?_, ?_⟩
  · intro l hl
    exact ⟨List.mem_of_find?_eq_some hl, by simpa using List.find?_some hl⟩
  · intro l hl hlid
    exact find?_by_key Like.id id hid hl hlid
  · rw [prismaFindOneLike, List.find?_eq_none]
    constructor
    · intro h l hl
      simpa using h l hl
    · intro h l hl
      simpa using h l hl

/-- Witness for C8: in `demoStore`, findOne(1) returns like 1 and findOne(9)
returns none. -/
theorem findOne_contract_witness :
    likeIdsUnique demoStore.likes ∧
      prismaFindOneLike 1 demoStore = some demoLike1 ∧
      (prismaFindOneLike 9 demoStore = none ↔ ∀ l ∈ demoStore.likes, l.id ≠ 9) :=
  ⟨by decide,
   (findOne_contract demoStore 1 (by decide)).2.2.1 demoLike1 (by decide) (by decide),
   (findOne_contract demoStore 9 (by decide)).2.2.2⟩

/-- C10: in the Prisma implementation, remove(id) on an existing row returns
the field values of the deleted row (the state immediately before deletion),
for likes and for users. -/
theorem prisma_remove_returns_deleted_row (s : Store) (id : Nat) :
    (∀ l, s.likes.find? (fun m => m.id == id) = some l →
      prismaRemoveLike id s = .ok (l, s.deleteLikeRows id) ∧ l ∈ s.likes ∧ l.id = id) ∧
    (∀ u, s.users.find? (fun v => v.id == id) = some u →
      prismaRemoveUser id s = .ok (u, s.deleteUserCascade id) ∧ u ∈ s.users ∧ u.id = id) := by
  constructor
  · intro l hf
    exact ⟨by simp [prismaRemoveLike, hf], List.mem_of_find?_eq_some hf,
      by simpa using List.find?_some hf⟩
  · intro u hf
    exact ⟨by simp [prismaRemoveUser, hf], List.mem_of_find?_eq_some hf,
      by simpa using List.find?_some hf⟩

/-- Witness for C10: removing like 1 from `demoStore` via the Prisma service
returns like 1's field values. -/
theorem prisma_remove_returns_deleted_row_witness :
    prismaRemoveLike 1 demoStore = .ok (demoLike1, demoStore.deleteLikeRows 1) :=
  ((prisma_remove_returns_deleted_row demoStore 1).1 demoLike1 (by decide)).1

/-- C4 counterexample: in the TypeORM implementation, update on a
nonexistent id does not fail with NotFound — it succeeds, returning an
absent result and the unchanged store. -/
theorem update_missing_id_counterexample :
    typeormUpdateLike 1 { userId := none, postId := none } emptyStore =
      .ok (none, emptyStore) ∧
    typeormUpdateUser 1 { name := none, email := none } 0 emptyStore =
      .ok (none, emptyStore) :=
  ⟨rfl, rfl⟩

/-- C4 amended: update on a nonexistent id leaves the store unchanged; the
Prisma implementation fails with NotFound before applying any change, while
the TypeORM implementation does not fail — it performs a zero-row no-op and
returns an absent result. -/
theorem update_missing_id_behavior (s : Store) (id : Nat) (dl : UpdateLikeDto)
    (du : UpdateUserDto) (now : Nat)
    (hl : s.likes.find? (fun m => m.id == id) = none)
    (hu : s.users.find? (fun v => v.id == id) = none) :
    prismaUpdateLike id dl s = .error .NotFound ∧
    typeormUpdateLike id dl s = .ok (none, s) ∧
    prismaUpdateUser id du now s = .error .NotFound ∧
    typeormUpdateUser id du now s = .ok (none, s) := by
  refine ⟨by simp [prismaUpdateLike, hl], ?_, by simp [prismaUpdateUser, hu], ?_⟩
  · simp [typeormUpdateLike, typeormFindOneLike, hl]
  · simp [typeormUpdateUser, typeormFindOneUser, hu]

/-- Witness for C4 (amended): id 1 exists in neither table of the empty
store; Prisma update errors NotFound, TypeORM update no-ops. -/
theorem update_missing_id_behavior_witness :
    emptyStore.likes.find? (fun m => m.id == 1) = none ∧
    emptyStore.users.find? (fun v => v.id == 1) = none ∧
    prismaUpdateLike 1 { userId := none, postId := none } emptyStore = .error .NotFound ∧
    typeormUpdateLike 1 { userId := none, postId := none } emptyStore = .ok (none, emptyStore) :=
  ⟨rfl, rfl,
   (update_missing_id_behavior emptyStore 1 { userId := none, postId := none }
     { name := none, email := none } 0 rfl rfl).1,
   (update_missing_id_behavior emptyStore 1 { userId := none, postId := none }
     { name := none, email := none } 0 rfl rfl).2.1⟩

/-- C5 counterexample: the TypeORM remove succeeds (no NotFound) on a
nonexistent id, and the Prisma remove returns the deleted row's field
values rather than no value. -/
theorem remove_missing_id_counterexample :
    typeormRemoveLike 1 emptyStore = .ok ((), emptyStore) ∧
    prismaRemoveLike 1 demoStore = .ok (demoLike1, demoStore.deleteLikeRows 1) :=
  ⟨rfl, rfl⟩

/-- C5 amended: the TypeORM remove returns no value and never fails — a
zero-row delete on a missing id is not an error; the Prisma remove fails
with NotFound when id does not identify an existing row and on success
returns the deleted row's field values rather than no value. -/
theorem remove_behavior (s : Store) (id : Nat) :
    typeormRemoveLike id s = .ok ((), s.deleteLikeRows id) ∧
    typeormRemoveUser id s = .ok ((), s.deleteUserCascade id) ∧
    (s.likes.find? (fun m => m.id == id) = none →
      typeormRemoveLike id s = .ok ((), s) ∧ prismaRemoveLike id s = .error .NotFound) ∧
    (∀ l, s.likes.find? (fun m => m.id == id) = some l →
      prismaRemoveLike id s = .ok (l, s.deleteLikeRows id)) ∧
    (s.users.find? (fun v => v.id == id) = none →
      prismaRemoveUser id s = .error .NotFound) := by
  refine ⟨rfl, rfl, ?_, ?_, ?_⟩
  · intro h
    constructor
    · have hfilter : s.likes.filter (fun l => l.id != id) = s.likes :=
        List.filter_eq_self.mpr (by
          intro a ha
          have := List.find?_eq_none.mp h a ha
          simpa using this)
      simp [typeormRemoveLike, Store.deleteLikeRows, hfilter]
    · simp [prismaRemoveLike, h]
  · intro l hf
    simp [prismaRemoveLike, hf]
  · intro h
    simp [prismaRemoveUser, h]

/-- Witness for C5 (amended): on the empty store, the TypeORM remove of the
nonexistent like 1 succeeds while the Prisma remove fails with NotFound. -/
theorem remove_behavior_witness :
    emptyStore.likes.find? (fun m => m.id == 1) = none ∧
    typeormRemoveLike 1 emptyStore = .ok ((), emptyStore) ∧
    prismaRemoveLike 1 emptyStore = .error .NotFound :=
  ⟨rfl, ((remove_behavior emptyStore 1).2.2.1 rfl).1, ((remove_behavior emptyStore 1).2.2.1 rfl).2⟩

/-- C6 counterexample: at the same input (update or remove of the
nonexistent id 1 on the empty store), the TypeORM component succeeds while
the Prisma component fails with NotFound — the two access components are
not observably equivalent. -/
theorem orm_equivalence_counterexample :
    typeormUpdateLike 1 { userId := none, postId := none } emptyStore = .ok (none, emptyStore) ∧
    prismaUpdateLike 1 { userId := none, postId := none } emptyStore = .error .NotFound ∧
    typeormRemoveLike 1 emptyStore = .ok ((), emptyStore) ∧
    prismaRemoveLike 1 emptyStore = .error .NotFound :=
  ⟨rfl, rfl, rfl, rfl⟩

/-- C6 amended: the two components agree exactly on create, findAll and
findOne (for Likes and Users); update and remove agree on the store effect
for existing ids but differ in the returned value (Prisma returns the row,
TypeORM returns a re-read or void), and on nonexistent ids TypeORM no-ops
while Prisma fails with NotFound. -/
theorem orm_equivalence_amended (s : Store) (id : Nat) (d : CreateLikeDto)
    (du : UpdateLikeDto) (now : Nat) (cu : CreateUserDto) :
    typeormCreateLike d now s = prismaCreateLike d now s ∧
    typeormFindAllLikes s = prismaFindAllLikes s ∧
    typeormFindOneLike id s = prismaFindOneLike id s ∧
    typeormCreateUser cu now s = prismaCreateUser cu now s ∧
    typeormFindAllUsers s = prismaFindAllUsers s ∧
    typeormFindOneUser id s = prismaFindOneUser id s ∧
    (s.likes.find? (fun m => m.id == id) = none →
      prismaUpdateLike id du s = .error .NotFound ∧
      typeormUpdateLike id du s = .ok (none, s) ∧
      prismaRemoveLike id s = .error .NotFound ∧
      typeormRemoveLike id s = .ok ((), s)) ∧
    (∀ l, s.likes.find? (fun m => m.id == id) = some l →
      (∀ e, prismaUpdateLike id du s = .error e → typeormUpdateLike id du s = .error e) ∧
      (∀ r s', prismaUpdateLike id du s = .ok (r, s') →
        typeormUpdateLike id du s = .ok (typeormFindOneLike id s', s')) ∧
      prismaRemoveLike id s = .ok (l, s.deleteLikeRows id) ∧
      typeormRemoveLike id s = .ok ((), s.deleteLikeRows id)) := by
  refine ⟨rfl, rfl, rfl, rfl, rfl, rfl, ?_, ?_⟩
  · intro h
    have hfilter : s.likes.filter (fun l => l.id != id) = s.likes :=
      List.filter_eq_self.mpr (by
        intro a ha
        have := List.find?_eq_none.mp h a ha
        simpa using this)
    refine ⟨by simp [prismaUpdateLike, h], ?_, by simp [prismaRemoveLike, h], ?_⟩
    · simp [typeormUpdateLike, typeormFindOneLike, h]
    · simp [typeormRemoveLike, Store.deleteLikeRows, hfilter]
  · intro l hf
    refine ⟨?_, ?_, by simp [prismaRemoveLike, hf], rfl⟩
    · intro e h
      cases hr : s.updateLikeRows id l du with
      | error e0 =>
        have he : e0 = e := by
          simp only [prismaUpdateLike, hf, hr, Except.error.injEq] at h
          exact h
        subst he
        simp [typeormUpdateLike, hf, hr]
      | ok s0 => simp only [prismaUpdateLike, hf, hr] at h; cases h
    · intro r s' h
      cases hr : s.updateLikeRows id l du with
      | error e0 => simp only [prismaUpdateLike, hf, hr] at h; cases h
      | ok s0 =>
        simp only [prismaUpdateLike, hf, hr, Except.ok.injEq, Prod.mk.injEq] at h
        obtain ⟨_, hs⟩ := h
        subst hs
        simp [typeormUpdateLike, hf, hr]

/-- Witness for C6 (amended): create agrees on `demoStore`, and both removes
of like 1 delete the same rows though their return values differ in shape. -/
theorem orm_equivalence_amended_witness :
    typeormCreateLike { userId := 1, postId := 1 } 3 demoStore =
      prismaCreateLike { userId := 1, postId := 1 } 3 demoStore ∧
    prismaRemoveLike 1 demoStore = .ok (demoLike1, demoStore.deleteLikeRows 1) ∧
    typeormRemoveLike 1 demoStore = .ok ((), demoStore.deleteLikeRows 1) :=
  ⟨(orm_equivalence_amended demoStore 1 { userId := 1, postId := 1 }
      { userId := none, postId := none } 3 { name := "N", email := "n@x.com" }).1,
   ((orm_equivalence_amended demoStore 1 { userId := 1, postId := 1 }
      { userId := none, postId := none } 3 { name := "N", email := "n@x.com" }).2.2.2.2.2.2.2
        demoLike1 (by decide)).2.2.1,
   ((orm_equivalence_amended demoStore 1 { userId := 1, postId := 1 }
      { userId := none, postId := none } 3 { name := "N", email := "n@x.com" }).2.2.2.2.2.2.2
        demoLike1 (by decide)).2.2.2⟩

end SocialApp
